import Mathlib

/-!
Verification development for the vec2tidb migration tool.

The definitions below are a shallow embedding of the Python sources:

- `src/vec2tidb/commands/qdrant/migrate.py` (`migrate`, `batch_generator`,
  `batch_processor`)
- `src/vec2tidb/commands/qdrant/dump.py` (`fetch_batch`)
- `src/vec2tidb/commands/qdrant/common.py` (`create_vector_table`,
  `insert_points`, `update_points`)
- `src/vec2tidb/commands/tidb/batch_update.py` (`get_table_pagination`,
  `batch_update_within_range`, `batch_update_table`)

External effects (Qdrant scroll calls, SQL execution) are modelled by
explicit environments/oracles; collections and tables are modelled as
Lean lists.  Machine floats never influence control flow in the claims
under study, so vector payloads are abstracted to `List Int` and their
JSON wire encoding to an injective textual encoding.
-/

namespace Vec2TiDB

/-- Identifier of a Qdrant point: the Python code distinguishes `int` ids,
`str` ids, and anything else (`migrate.py` lines 57-65). -/
inductive PointId where
  | intId (n : Int)
  | strId (s : String)
  | otherId
deriving DecidableEq

instance : Inhabited PointId := ⟨PointId.otherId⟩

/-- One Qdrant record: id, vector and payload.  The payload is kept as its
JSON text (`json.dumps(point.payload)` in the source). -/
structure Point where
  id : PointId
  vector : List Int
  payload : String
deriving DecidableEq

instance : Inhabited Point := ⟨⟨PointId.otherId, [], ""⟩⟩

/-- Stand-in for `json.dumps(point.vector)`: an injective textual encoding of
the vector value stored into the target vector column. -/
def encodeVector (v : List Int) : String := toString v

/-- One row of the target TiDB table: the id, vector and payload columns plus
a timestamp column that the migration statements never touch. -/
structure Row where
  id : PointId
  vector : String
  payload : String
  created_at : Nat
deriving DecidableEq

instance : Inhabited Row := ⟨⟨PointId.otherId, "", "", 0⟩⟩

/-- Consecutive chunks of size `B` of a list, in order.  This is how both the
scroll loop of `batch_generator` (`migrate.py` lines 139-158) and the
row-number pagination of `get_table_pagination` walk a stable collection:
each step takes the next `B` records.  A `B = 0` request returns no batches
(the scroll would return no points and the loop breaks at once). -/
def chunkList {α : Type} (B : Nat) : List α → List (List α)
  | [] => []
  | x :: xs =>
    if B = 0 then []
    else ((x :: xs).take B) :: chunkList B (xs.drop (B - 1))
termination_by l => l.length
decreasing_by
  simp only [List.length_drop, List.length_cons]
  omega

theorem chunkList_nil {α : Type} (B : Nat) : chunkList B ([] : List α) = [] := by
  simp [chunkList]

theorem chunkList_cons {α : Type} {B : Nat} (hB : 1 ≤ B) (x : α) (xs : List α) :
    chunkList B (x :: xs) = ((x :: xs).take B) :: chunkList B (xs.drop (B - 1)) := by
  rw [chunkList]
  simp only [if_neg (by omega : ¬ B = 0)]

theorem drop_cons_of_pos {α : Type} {B : Nat} (hB : 1 ≤ B) (x : α) (xs : List α) :
    (x :: xs).drop B = xs.drop (B - 1) := by
  cases B with
  | zero => omega
  | succ b => simp

/-- Chunking at a positive size loses nothing: flattening the chunks gives the
original list back. -/
theorem chunkList_flatten {α : Type} {B : Nat} (hB : 1 ≤ B) :
    ∀ l : List α, (chunkList B l).flatten = l := by
  suffices h : ∀ (n : Nat) (l : List α), l.length = n → (chunkList B l).flatten = l by
    exact fun l => h l.length l rfl
  intro n
  induction n using Nat.strong_induction_on with
  | _ n ih =>
    intro l hn
    cases l with
    | nil => simp [chunkList]
    | cons x xs =>
      rw [chunkList_cons hB x xs]
      rw [List.flatten_cons]
      rw [ih (xs.drop (B - 1)).length
        (by simp only [List.length_drop, List.length_cons] at hn ⊢; omega)
        (xs.drop (B - 1)) rfl]
      rw [← drop_cons_of_pos hB x xs, List.take_append_drop]

/-- Total size of the chunks never exceeds the size of the list (with equality
for positive `B`). -/
theorem chunkList_sum_length_le {α : Type} (B : Nat) (l : List α) :
    ((chunkList B l).map List.length).sum ≤ l.length := by
  by_cases hB : 1 ≤ B
  · have h := congrArg List.length (chunkList_flatten hB l)
    rw [List.length_flatten] at h
    omega
  · have hB0 : B = 0 := by omega
    subst hB0
    cases l with
    | nil => simp [chunkList]
    | cons x xs => simp [chunkList]

/-- Arithmetic shadow of `chunkList`: the sizes of the chunks of a list of
length `n`. -/
def chunkSizes (B : Nat) (n : Nat) : List Nat :=
  if n = 0 ∨ B = 0 then []
  else min B n :: chunkSizes B (n - B)
termination_by n
decreasing_by omega

theorem chunkList_map_length {α : Type} (B : Nat) :
    ∀ l : List α, (chunkList B l).map List.length = chunkSizes B l.length := by
  suffices h : ∀ (n : Nat) (l : List α), l.length = n →
      (chunkList B l).map List.length = chunkSizes B l.length by
    exact fun l => h l.length l rfl
  intro n
  induction n using Nat.strong_induction_on with
  | _ n ih =>
    intro l hn
    cases l with
    | nil => rw [chunkList_nil, chunkSizes]; simp
    | cons x xs =>
      by_cases hB : 1 ≤ B
      · rw [chunkList_cons hB x xs, List.map_cons,
          ih (xs.drop (B - 1)).length
            (by simp only [List.length_drop, List.length_cons] at hn ⊢; omega)
            (xs.drop (B - 1)) rfl]
        have hout : chunkSizes B (x :: xs).length
            = min B (x :: xs).length :: chunkSizes B ((x :: xs).length - B) := by
          rw [chunkSizes]
          rw [if_neg (by simp only [List.length_cons]; omega)]
        rw [hout]
        congr 1
        · rw [List.length_take]
        · congr 1
          simp only [List.length_drop, List.length_cons]
          omega
      · have hB0 : B = 0 := by omega
        subst hB0
        rw [chunkSizes]
        simp [chunkList]

/-- Ceiling-division recurrence used to count chunks and pulled batches. -/
theorem ceil_div_rec {B t : Nat} (hB : 1 ≤ B) (ht : 1 ≤ t) :
    (t + B - 1) / B = ((t - B) + B - 1) / B + 1 := by
  by_cases h : B ≤ t
  · have h1 : t + B - 1 = ((t - B) + B - 1) + B := by omega
    rw [h1, Nat.add_div_right _ (by omega)]
  · have h1 : t - B = 0 := by omega
    rw [h1]
    have h2 : t + B - 1 = (t - 1) + B := by omega
    rw [h2, Nat.add_div_right _ (by omega), Nat.div_eq_of_lt (by omega),
      Nat.div_eq_of_lt (by omega)]

theorem chunkSizes_length {B : Nat} (hB : 1 ≤ B) :
    ∀ n, (chunkSizes B n).length = (n + B - 1) / B := by
  intro n
  induction n using Nat.strong_induction_on with
  | _ n ih =>
    by_cases hn : n = 0
    · subst hn
      rw [chunkSizes]
      simp [Nat.div_eq_of_lt (by omega : B - 1 < B)]
    · rw [chunkSizes, if_neg (by omega)]
      simp only [List.length_cons]
      rw [ih (n - B) (by omega)]
      rw [ceil_div_rec (t := n) hB (by omega)]

/-! Model of `fetch_batch` (`dump.py` lines 107-134).  One Qdrant scroll call
either succeeds with a list of points and a next cursor, raises an exception
whose message contains "Message too long", or raises any other exception.
The environment `env size attempt` gives the outcome of the scroll issued at
batch size `size` on retry attempt `attempt` (attempts restart at 0 after the
batch size is halved, exactly as the recursive Python call resets
`max_retries`). -/

/-- Outcome of one `qdrant_client.scroll` call as seen by `fetch_batch`. -/
inductive ScrollOutcome where
  | success (points : List Point) (next : Option Nat)
  | tooLong
  | otherError
deriving DecidableEq

/-- One iteration of the retry loop body of `fetch_batch`: `some r` means the
loop exits with result `r`, `none` means the attempt is consumed and the loop
moves on to the next attempt.  Mirrors the `try`/`except` body: a success
returns; a "Message too long" failure at a size above 100 whose halved size is
still at least 100 recurses at the halved size; every other failure falls
through to the next attempt (or to the final empty return). -/
inductive AttemptExit where
  | fetched (points : List Point) (next : Option Nat)
  | shrink
deriving DecidableEq

def attemptStep (env : Nat → Nat → ScrollOutcome) (size a : Nat) :
    Option AttemptExit :=
  match env size a with
  | .success pts next => some (.fetched pts next)
  | .tooLong =>
    if 100 < size then
      (if 100 ≤ size / 2 then some .shrink else none)
    else none
  | .otherError => none

/-- The three attempts of `fetch_batch` at a fixed batch size (`max_retries =
3`): the first attempt that exits decides; if all three fall through, the
wrapper gives up. -/
inductive FetchExit where
  | fetched (points : List Point) (next : Option Nat)
  | exhausted
  | shrink
deriving DecidableEq

def tryAttempts (env : Nat → Nat → ScrollOutcome) (size : Nat) : FetchExit :=
  match attemptStep env size 0 with
  | some (.fetched pts next) => .fetched pts next
  | some .shrink => .shrink
  | none =>
    match attemptStep env size 1 with
    | some (.fetched pts next) => .fetched pts next
    | some .shrink => .shrink
    | none =>
      match attemptStep env size 2 with
      | some (.fetched pts next) => .fetched pts next
      | some .shrink => .shrink
      | none => .exhausted

theorem attemptStep_shrink {env : Nat → Nat → ScrollOutcome} {size a : Nat}
    (h : attemptStep env size a = some .shrink) :
    100 < size ∧ 100 ≤ size / 2 ∧ env size a = .tooLong := by
  unfold attemptStep at h
  cases henv : env size a <;> rw [henv] at h
  · simp at h
  · by_cases h1 : 100 < size
    · rw [if_pos h1] at h
      by_cases h2 : 100 ≤ size / 2
      · exact ⟨h1, h2, rfl⟩
      · rw [if_neg h2] at h
        simp at h
    · rw [if_neg h1] at h
      simp at h
  · simp at h

theorem tryAttempts_shrink {env : Nat → Nat → ScrollOutcome} {size : Nat}
    (h : tryAttempts env size = .shrink) : 100 < size ∧ 100 ≤ size / 2 := by
  unfold tryAttempts at h
  cases h0 : attemptStep env size 0 with
  | some e =>
    rw [h0] at h
    cases e with
    | fetched pts next => simp at h
    | shrink => exact ⟨(attemptStep_shrink h0).1, (attemptStep_shrink h0).2.1⟩
  | none =>
    rw [h0] at h
    cases h1 : attemptStep env size 1 with
    | some e =>
      rw [h1] at h
      cases e with
      | fetched pts next => simp at h
      | shrink => exact ⟨(attemptStep_shrink h1).1, (attemptStep_shrink h1).2.1⟩
    | none =>
      rw [h1] at h
      cases h2 : attemptStep env size 2 with
      | some e =>
        rw [h2] at h
        cases e with
        | fetched pts next => simp at h
        | shrink => exact ⟨(attemptStep_shrink h2).1, (attemptStep_shrink h2).2.1⟩
      | none =>
        rw [h2] at h
        simp at h

/-- Shallow embedding of `fetch_batch` from `dump.py`: run up to three
attempts at the current batch size; a "Message too long" failure above the
floor whose halved size is still at least 100 restarts at the halved size
with a fresh attempt budget; exhausting the attempts returns the empty
result `([], none)` instead of raising. -/
def fetch_batch (env : Nat → Nat → ScrollOutcome) (size : Nat) :
    List Point × Option Nat :=
  match h : tryAttempts env size with
  | .fetched pts next => (pts, next)
  | .exhausted => ([], none)
  | .shrink => fetch_batch env (size / 2)
termination_by size
decreasing_by
  have h100 := (tryAttempts_shrink h).1
  exact Nat.div_lt_self (by omega) (by omega)

/-- Ghost instrument of the same recursion: the batch size at which the
eventual successful scroll ran (`none` when the attempts were exhausted).
This value is observable in the source through the shrink log line and the
size of the returned batch. -/
def fetchSuccSize (env : Nat → Nat → ScrollOutcome) (size : Nat) : Option Nat :=
  match h : tryAttempts env size with
  | .fetched _ _ => some size
  | .exhausted => none
  | .shrink => fetchSuccSize env (size / 2)
termination_by size
decreasing_by
  have h100 := (tryAttempts_shrink h).1
  exact Nat.div_lt_self (by omega) (by omega)

/-! Models of `common.py`. -/

/-- Schema of the CREATE TABLE statement produced by `create_vector_table`
(`common.py` lines 56-94): the pieces of the generated SQL that the claims
talk about. -/
structure TableSpec where
  id_column_type : String
  distance_fn : String
  dimensions : Nat
deriving DecidableEq

/-- Shallow embedding of `create_vector_table`: the distance metric is mapped
to a TiDB distance function before any SQL is built, and an unknown metric
raises `click.UsageError` (modelled as `Except.error`) before the table is
created. -/
def create_vector_table (distance_metric : String) (dimensions : Nat)
    (id_column_type : String) : Except String TableSpec :=
  if distance_metric = "l2" then
    .ok ⟨id_column_type, "VEC_L2_DISTANCE", dimensions⟩
  else if distance_metric = "cosine" then
    .ok ⟨id_column_type, "VEC_COSINE_DISTANCE", dimensions⟩
  else
    .error ("Invalid distance metric: " ++ distance_metric)

/-- Shallow embedding of `insert_points` (`common.py` lines 130-166): a plain
bulk INSERT appending one row per point. -/
def insert_points (tbl : List Row) (points : List Point) : List Row :=
  tbl ++ points.map (fun p => ⟨p.id, encodeVector p.vector, p.payload, 0⟩)

/-- Effect of one parameter set of the UPDATE statement of `update_points` on
one row: when the id matches, the vector column is overwritten and the
payload column is overwritten only when a payload column was configured
(the SET clause at `common.py` lines 187-190); all other columns are
untouched. -/
def updateRowWith (payloadConfigured : Bool) (p : Point) (r : Row) : Row :=
  { r with
    vector := encodeVector p.vector
    payload := if payloadConfigured then p.payload else r.payload }

/-- Shallow embedding of `update_points` (`common.py` lines 169-222): the
UPDATE statement runs once per point, in order, modifying every row whose id
column equals the point id and no other row; no row is inserted or deleted. -/
def update_points (tbl : List Row) (points : List Point)
    (payloadConfigured : Bool) : List Row :=
  points.foldl
    (fun t p =>
      t.map (fun r => if r.id = p.id then updateRowWith payloadConfigured p r else r))
    tbl

/-- Cumulative effect of the whole statement sequence of `update_points` on a
single row. -/
def rowAfterUpdates (payloadConfigured : Bool) (points : List Point)
    (r : Row) : Row :=
  points.foldl
    (fun r p => if r.id = p.id then updateRowWith payloadConfigured p r else r) r

theorem update_points_eq_map (tbl : List Row) (points : List Point)
    (cfg : Bool) :
    update_points tbl points cfg = tbl.map (rowAfterUpdates cfg points) := by
  induction points generalizing tbl with
  | nil =>
    rw [update_points, List.foldl_nil]
    have h0 : rowAfterUpdates cfg [] = fun r => r := rfl
    rw [h0]
    exact (List.map_id' tbl).symm
  | cons p ps ih =>
    rw [update_points, List.foldl_cons, ← update_points, ih, List.map_map]
    rfl

theorem rowAfterUpdates_id (cfg : Bool) (points : List Point) (r : Row) :
    (rowAfterUpdates cfg points r).id = r.id := by
  induction points generalizing r with
  | nil => rfl
  | cons p ps ih =>
    rw [rowAfterUpdates, List.foldl_cons, ← rowAfterUpdates]
    by_cases h : r.id = p.id
    · rw [if_pos h, ih]; rfl
    · rw [if_neg h, ih]

theorem rowAfterUpdates_created_at (cfg : Bool) (points : List Point) (r : Row) :
    (rowAfterUpdates cfg points r).created_at = r.created_at := by
  induction points generalizing r with
  | nil => rfl
  | cons p ps ih =>
    rw [rowAfterUpdates, List.foldl_cons, ← rowAfterUpdates]
    by_cases h : r.id = p.id
    · rw [if_pos h, ih]; rfl
    · rw [if_neg h, ih]

theorem rowAfterUpdates_payload_of_not_cfg (points : List Point) (r : Row) :
    (rowAfterUpdates false points r).payload = r.payload := by
  induction points generalizing r with
  | nil => rfl
  | cons p ps ih =>
    rw [rowAfterUpdates, List.foldl_cons, ← rowAfterUpdates]
    by_cases h : r.id = p.id
    · rw [if_pos h, ih]; rfl
    · rw [if_neg h, ih]

theorem rowAfterUpdates_of_no_match (cfg : Bool) (points : List Point) (r : Row)
    (h : ∀ p ∈ points, p.id ≠ r.id) : rowAfterUpdates cfg points r = r := by
  induction points with
  | nil => rfl
  | cons p ps ih =>
    rw [rowAfterUpdates, List.foldl_cons, ← rowAfterUpdates]
    rw [if_neg (fun he => h p (by simp) he.symm)]
    exact ih (fun q hq => h q (by simp [hq]))

theorem rowAfterUpdates_of_match (cfg : Bool) (points : List Point) (r : Row)
    (h : ∃ p ∈ points, p.id = r.id) :
    ∃ p ∈ points, p.id = r.id ∧
      (rowAfterUpdates cfg points r).vector = encodeVector p.vector ∧
      (rowAfterUpdates cfg points r).payload
        = (if cfg then p.payload else r.payload) := by
  induction points using List.reverseRecOn generalizing r with
  | nil => simp at h
  | append_singleton ps p ih =>
    rw [rowAfterUpdates, List.foldl_append, List.foldl_cons, List.foldl_nil,
      ← rowAfterUpdates]
    by_cases hm : (rowAfterUpdates cfg ps r).id = p.id
    · rw [if_pos hm]
      refine ⟨p, by simp, ?_, ?_, ?_⟩
      · rw [rowAfterUpdates_id] at hm
        exact hm.symm
      · rfl
      · cases cfg with
        | true => rfl
        | false => exact rowAfterUpdates_payload_of_not_cfg ps r
    · rw [if_neg hm]
      rw [rowAfterUpdates_id] at hm
      have hex : ∃ q ∈ ps, q.id = r.id := by
        rcases h with ⟨q, hq, hqid⟩
        rcases List.mem_append.mp hq with hq1 | hq2
        · exact ⟨q, hq1, hqid⟩
        · simp only [List.mem_singleton] at hq2
          subst hq2
          exact absurd hqid.symm hm
      rcases ih r hex with ⟨q, hq, hqid, hvec, hpay⟩
      exact ⟨q, by simp [hq], hqid, hvec, hpay⟩

/-! Models of `batch_update.py`. -/

/-- One pagination range produced by `get_table_pagination`: the `Page`
TypedDict of `batch_update.py` lines 17-21.  Keys are modelled as naturals
(the id column values in the SQL; the `str()` conversion in the source is
presentation only). -/
structure Page where
  start_key : Nat
  end_key : Nat
  page_num : Nat
  page_size : Nat
deriving DecidableEq

instance : Inhabited Page := ⟨⟨0, 0, 0, 0⟩⟩

/-- Pages built from consecutive chunks of the row-numbered key sequence,
numbered from `i`: each page reports the MIN key, MAX key, page number and
COUNT of its chunk, exactly as the GROUP BY query of `get_table_pagination`
(`batch_update.py` lines 45-59) does for the group of rows with the same
`FLOOR((row_num - 1) / batch_size) + 1`. -/
def pagesFrom (i : Nat) : List (List Nat) → List Page
  | [] => []
  | c :: cs => ⟨c.headD 0, c.getLastD 0, i, c.length⟩ :: pagesFrom (i + 1) cs

/-- Shallow embedding of `get_table_pagination`: `keys` is the id column of
the source table in the ascending order imposed by `ROW_NUMBER() OVER (ORDER
BY id)`; rows are grouped into chunks of `batch_size` consecutive row
numbers and each group becomes one page. -/
def get_table_pagination (keys : List Nat) (batch_size : Nat) : List Page :=
  pagesFrom 1 (chunkList batch_size keys)

theorem pagesFrom_length (i : Nat) (cs : List (List Nat)) :
    (pagesFrom i cs).length = cs.length := by
  induction cs generalizing i with
  | nil => rfl
  | cons c cs ih => simp [pagesFrom, ih]

theorem pagesFrom_map_size (i : Nat) (cs : List (List Nat)) :
    (pagesFrom i cs).map Page.page_size = cs.map List.length := by
  induction cs generalizing i with
  | nil => rfl
  | cons c cs ih => simp [pagesFrom, ih]

/-- Errors crossing `batch_update_table`: either a raw driver error
(`SQLAlchemyError`) or the `click.ClickException` that
`batch_update_within_range` wraps it into. -/
inductive DBError where
  | sqlError (msg : String)
  | clickError (msg : String)
deriving DecidableEq

/-- Shallow embedding of `batch_update_within_range` (`batch_update.py` lines
76-126): `env p` is the outcome of executing the bulk UPDATE statement for
page `p` (its affected-row count, or the `SQLAlchemyError` message); a driver
failure is re-raised as a `click.ClickException`. -/
def batch_update_within_range (env : Page → Except String Nat) (p : Page) :
    Except DBError Nat :=
  match env p with
  | .ok n => .ok n
  | .error e => .error (.clickError ("Failed to update batch: " ++ e))

/-- Page loop of `batch_update_table` (`batch_update.py` lines 164-183): pages
are updated in order and the affected-row counts accumulate; any error raised
for a page — whether re-raised by the `except SQLAlchemyError` arm or
propagating uncaught as a `ClickException` — aborts the loop at once. -/
def batch_update_pages (env : Page → Except String Nat) :
    List Page → Nat → Except DBError Nat
  | [], acc => .ok acc
  | p :: ps, acc =>
    match batch_update_within_range env p with
    | .ok n => batch_update_pages env ps (acc + n)
    | .error e => .error e

/-- Shallow embedding of `batch_update_table`: short-circuit on an empty page
list, otherwise run the page loop. -/
def batch_update_table (env : Page → Except String Nat) (pages : List Page) :
    Except DBError Nat :=
  if pages.isEmpty then .ok 0
  else batch_update_pages env pages 0

/-- Pages for which the loop actually issued an UPDATE statement: every page
up to and including the first failing one. -/
def attempted_pages (env : Page → Except String Nat) : List Page → List Page
  | [] => []
  | p :: ps =>
    p ::
      (match batch_update_within_range env p with
      | .ok _ => attempted_pages env ps
      | .error _ => [])

/-! Models of `migrate.py`. -/

/-- Migration mode (`--mode create|update`). -/
inductive Mode where
  | create
  | update
deriving DecidableEq

/-- Fatal errors of the migration pipeline, in the order the source can raise
them: `click.UsageError` for a missing collection or empty source,
`click.BadParameter` for an unsupported point-id type, and the
`click.ClickException` wrappers around table creation/verification failures. -/
inductive MigError where
  | collectionMissing
  | emptySource
  | unsupportedIdType
  | createFailed (msg : String)
  | checkFailed
deriving DecidableEq

/-- Data-moving operations issued against TiDB during a migration run, in
order. -/
inductive WriteOp where
  | dropTableOp
  | createTableOp (spec : TableSpec)
  | writeBatch (n : Nat)
deriving DecidableEq

/-- Observable outcome of one `migrate` call: the error it raised (if any),
the id column type it inferred (printed in the migration summary and used for
the CREATE TABLE), the write operations issued, and the processed total it
reports. -/
structure MigOutcome where
  err : Option MigError
  idColumnType : Option String
  writes : List WriteOp
  processed : Nat
deriving DecidableEq

/-- Shallow embedding of the `batch_generator` closure of `migrate`
(`migrate.py` lines 139-158): scrolling a stable collection with a fixed
limit yields its records in consecutive chunks of `batch_size`. -/
def batch_generator (batch_size : Nat) (pts : List Point) : List (List Point) :=
  chunkList batch_size pts

/-- Modelled from the spec: `process_batches_concurrent` lives in
`vec2tidb/processing.py`, which is not part of the source tree (only
its use site in `migrate.py` is).  Per the spec, a single producer pulls batches
from the generator and a short-circuit guard stops it once `tasks_total`
records have been requested — each pull requests `batch_size` records — even
if the source reports more.  `pulledBatches` is the list of batches the
producer hands to the workers. -/
def pulledBatches (tasks_total batch_size : Nat) :
    Nat → List (List Point) → List (List Point)
  | _, [] => []
  | requested, b :: bs =>
    if requested < tasks_total then
      b :: pulledBatches tasks_total batch_size (requested + batch_size) bs
    else []

/-- Modelled from the spec: the run of `process_batches_concurrent` completes
once every pulled batch has been processed; the shared progress counter it
returns is the sum of the per-batch counts reported by the batch processor. -/
def process_batches_concurrent (tasks_total batch_size : Nat)
    (batches : List (List Point)) (processor : List Point → Nat) : Nat :=
  ((pulledBatches tasks_total batch_size 0 batches).map processor).sum

/-- Shallow embedding of the `batch_processor` closure of `migrate`
(`migrate.py` lines 160-198): an empty batch reports 0; otherwise the batch
is inserted (create mode) or applied as per-id updates (update mode) and the
number of records in the fetched batch is reported, independently of how many
target rows were matched. -/
def batch_processor (mode : Mode) (payloadConfigured : Bool) (tbl : List Row)
    (points : List Point) : List Row × Nat :=
  if points.isEmpty then (tbl, 0)
  else
    match mode with
    | .create => (insert_points tbl points, points.length)
    | .update => (update_points tbl points payloadConfigured, points.length)

/-- Shallow embedding of `migrate` (`migrate.py` lines 19-212).
Parameters mirror the call surface that matters to the claims:
`collectionExists` and `tableCheckOk` stand for the answers of the two
external existence checks, `pts` is the (stable) content of the Qdrant
collection, and `id_column_type` is the caller-supplied column type, which
line 51 of the source overwrites before first use.  The outcome records the
inferred id type, the writes issued and the reported processed total. -/
def migrate (mode : Mode) (collectionExists : Bool) (pts : List Point)
    (id_column_type : String) (distance_metric : String) (dimensions : Nat)
    (drop_table : Bool) (tableCheckOk : Bool) (batch_size : Nat) : MigOutcome :=
  if collectionExists = false then
    ⟨some .collectionMissing, none, [], 0⟩
  else if pts.length = 0 then
    ⟨some .emptySource, none, [], 0⟩
  else
    -- line 51: id_column_type = "BIGINT", discarding the caller's value
    let inferred : Except Unit String :=
      match pts.take 1 with
      | [] => .ok "BIGINT"
      | p :: _ =>
        match p.id with
        | .intId _ => .ok "BIGINT"
        | .strId s => .ok ("VARCHAR(" ++ toString s.length ++ ")")
        | .otherId => .error ()
    match inferred with
    | .error _ => ⟨some .unsupportedIdType, none, [], 0⟩
    | .ok idType =>
      let pulled := pulledBatches pts.length batch_size 0
        (batch_generator batch_size pts)
      let streamWrites := pulled.map (fun b => WriteOp.writeBatch b.length)
      let total := process_batches_concurrent pts.length batch_size
        (batch_generator batch_size pts) List.length
      match mode with
      | .create =>
        let dropOps := if drop_table then [WriteOp.dropTableOp] else []
        match create_vector_table distance_metric dimensions idType with
        | .error e =>
          ⟨some (.createFailed ("Failed to create table: " ++ e)), some idType,
            dropOps, 0⟩
        | .ok spec =>
          ⟨none, some idType, dropOps ++ WriteOp.createTableOp spec :: streamWrites,
            total⟩
      | .update =>
        if tableCheckOk = false then
          ⟨some .checkFailed, some idType, [], 0⟩
        else
          ⟨none, some idType, streamWrites, total⟩

/-! Claim theorems. -/

theorem getD_map_lt (f : Row → Row) (l : List Row) {i : Nat} (h : i < l.length) :
    (l.map f).getD i default = f (l.getD i default) := by
  rw [List.getD_eq_getElem?_getD, List.getD_eq_getElem?_getD,
    List.getElem?_map f l i, List.getElem?_eq_getElem h]
  rfl

/-- C4: in update mode, every batch write overwrites each matched row's
vector column, overwrites the payload column only when a payload column was
configured (leaving it untouched otherwise), never touches the other columns,
leaves rows without a matching id unchanged, and inserts no rows: the
target row count is preserved. -/
theorem c4_update_frame (tbl : List Row) (points : List Point) (cfg : Bool) :
    (update_points tbl points cfg).length = tbl.length ∧
    ∀ i, i < tbl.length →
      ((update_points tbl points cfg).getD i default).id
          = (tbl.getD i default).id ∧
      ((update_points tbl points cfg).getD i default).created_at
          = (tbl.getD i default).created_at ∧
      ((∀ p ∈ points, p.id ≠ (tbl.getD i default).id) →
        (update_points tbl points cfg).getD i default = tbl.getD i default) ∧
      ((∃ p ∈ points, p.id = (tbl.getD i default).id) →
        ∃ p ∈ points, p.id = (tbl.getD i default).id ∧
          ((update_points tbl points cfg).getD i default).vector
              = encodeVector p.vector ∧
          ((update_points tbl points cfg).getD i default).payload
              = (if cfg then p.payload else (tbl.getD i default).payload)) := by
  rw [update_points_eq_map]
  refine ⟨List.length_map tbl _, ?_⟩
  intro i hi
  rw [getD_map_lt _ tbl hi]
  refine ⟨rowAfterUpdates_id cfg points _, rowAfterUpdates_created_at cfg points _,
    ?_, ?_⟩
  · intro hno
    exact rowAfterUpdates_of_no_match cfg points _ hno
  · intro hex
    exact rowAfterUpdates_of_match cfg points _ hex

/-- Witness for C4 at a concrete table and batch: a two-row table updated by
one point matching the first row keeps its length, and the unmatched second
row is returned unchanged. -/
theorem c4_witness :
    (update_points
        [⟨PointId.intId 1, "v0", "p0", 7⟩, ⟨PointId.intId 2, "v1", "p1", 8⟩]
        [⟨PointId.intId 1, [3], "np"⟩] true).length
      = ([⟨PointId.intId 1, "v0", "p0", 7⟩,
          ⟨PointId.intId 2, "v1", "p1", 8⟩] : List Row).length ∧
    (update_points
        [⟨PointId.intId 1, "v0", "p0", 7⟩, ⟨PointId.intId 2, "v1", "p1", 8⟩]
        [⟨PointId.intId 1, [3], "np"⟩] true).getD 1 default
      = ⟨PointId.intId 2, "v1", "p1", 8⟩ := by
  refine ⟨(c4_update_frame _ _ _).1, ?_⟩
  have h := ((c4_update_frame
    [⟨PointId.intId 1, "v0", "p0", 7⟩, ⟨PointId.intId 2, "v1", "p1", 8⟩]
    [⟨PointId.intId 1, [3], "np"⟩] true).2 1 (by decide)).2.2.1 (by decide)
  exact h

/-- C5: the target id column type is inferred from the first observed record —
an integer id gives BIGINT, a string id gives VARCHAR sized to the sampled
id's length, and any other id type fails the run with no write issued and
nothing processed. -/
theorem c5_id_type_inference (mode : Mode) (pts : List Point) (a m : String)
    (d : Nat) (dt tck : Bool) (B : Nat) (p : Point) (rest : List Point)
    (hpts : pts = p :: rest) :
    (∀ n, p.id = .intId n →
      (migrate mode true pts a m d dt tck B).idColumnType = some "BIGINT") ∧
    (∀ s, p.id = .strId s →
      (migrate mode true pts a m d dt tck B).idColumnType
        = some ("VARCHAR(" ++ toString s.length ++ ")")) ∧
    (p.id = .otherId →
      migrate mode true pts a m d dt tck B
        = ⟨some .unsupportedIdType, none, [], 0⟩) := by
  subst hpts
  refine ⟨?_, ?_, ?_⟩
  · intro n hid
    simp only [migrate, List.take_succ_cons, List.take_zero, hid,
      List.length_cons]
    norm_num
    cases mode with
    | create =>
      cases hc : create_vector_table m d "BIGINT" with
      | error e => simp [hc]
      | ok spec => simp [hc]
    | update =>
      by_cases htck : tck = false
      · simp [htck]
      · simp [htck]
  · intro s hid
    simp only [migrate, List.take_succ_cons, List.take_zero, hid,
      List.length_cons]
    norm_num
    cases mode with
    | create =>
      cases hc : create_vector_table m d ("VARCHAR(" ++ toString s.length ++ ")") with
      | error e => simp [hc]
      | ok spec => simp [hc]
    | update =>
      by_cases htck : tck = false
      · simp [htck]
      · simp [htck]
  · intro hid
    simp only [migrate, List.take_succ_cons, List.take_zero, hid,
      List.length_cons]
    norm_num

/-- Witness for C5: a run over a collection whose first record has the
three-character string id "abc" infers VARCHAR(3). -/
theorem c5_witness :
    (migrate .create true [⟨PointId.strId "abc", [], ""⟩] "BIGINT" "cosine" 4
        false true 100).idColumnType
      = some ("VARCHAR(" ++ toString "abc".length ++ ")") :=
  (c5_id_type_inference .create [⟨PointId.strId "abc", [], ""⟩] "BIGINT"
    "cosine" 4 false true 100 ⟨PointId.strId "abc", [], ""⟩ [] rfl).2.1 "abc" rfl

/-- C6: the create-mode bootstrap maps the metric cosine to the
VEC_COSINE_DISTANCE index function and l2 to VEC_L2_DISTANCE, and any other
metric is a hard configuration error raised before the CREATE TABLE statement
is built: the run fails and no create-table write is issued. -/
theorem c6_distance_metric :
    (∀ d t, create_vector_table "cosine" d t
        = .ok ⟨t, "VEC_COSINE_DISTANCE", d⟩) ∧
    (∀ d t, create_vector_table "l2" d t = .ok ⟨t, "VEC_L2_DISTANCE", d⟩) ∧
    (∀ m d t, m ≠ "cosine" → m ≠ "l2" →
      create_vector_table m d t = .error ("Invalid distance metric: " ++ m)) ∧
    (∀ pts a m d dt tck B p rest, pts = p :: rest → p.id ≠ PointId.otherId →
      m ≠ "cosine" → m ≠ "l2" →
      (migrate .create true pts a m d dt tck B).err
          = some (.createFailed
              ("Failed to create table: " ++ ("Invalid distance metric: " ++ m))) ∧
      (migrate .create true pts a m d dt tck B).writes
          = (if dt then [WriteOp.dropTableOp] else [])) := by
  refine ⟨?_, ?_, ?_, ?_⟩
  · intro d t
    rfl
  · intro d t
    rfl
  · intro m d t h1 h2
    simp [create_vector_table, h1, h2]
  · intro pts a m d dt tck B p rest hpts hid h1 h2
    subst hpts
    have hcv : ∀ t, create_vector_table m d t
        = .error ("Invalid distance metric: " ++ m) := by
      intro t
      simp [create_vector_table, h1, h2]
    cases hpid : p.id with
    | intId n =>
      simp only [migrate, List.take_succ_cons, List.take_zero, hpid,
        List.length_cons]
      norm_num
      rw [hcv]
      exact ⟨rfl, rfl⟩
    | strId s =>
      simp only [migrate, List.take_succ_cons, List.take_zero, hpid,
        List.length_cons]
      norm_num
      rw [hcv]
      exact ⟨rfl, rfl⟩
    | otherId => exact absurd hpid hid

/-- Witness for C6: the metric "euclid" is rejected, and a create-mode run
with it (drop flag unset) issues no write at all. -/
theorem c6_witness :
    create_vector_table "euclid" 4 "BIGINT"
        = .error ("Invalid distance metric: " ++ "euclid") ∧
    (migrate .create true [⟨PointId.intId 1, [], ""⟩] "BIGINT" "euclid" 4
        false true 100).writes = (if false then [WriteOp.dropTableOp] else []) :=
  ⟨c6_distance_metric.2.2.1 "euclid" 4 "BIGINT" (by decide) (by decide),
    (c6_distance_metric.2.2.2 [⟨PointId.intId 1, [], ""⟩] "BIGINT" "euclid" 4
      false true 100 ⟨PointId.intId 1, [], ""⟩ [] rfl (by decide) (by decide)
      (by decide)).2⟩

/-- C9: the caller-supplied id_column_type argument has no effect on the
outcome of migrate — in particular on the created schema: line 51 of
migrate.py overwrites it before first use, so two calls differing only in
that argument coincide. -/
theorem c9_id_column_type_ignored (mode : Mode) (ce : Bool) (pts : List Point)
    (a b m : String) (d : Nat) (dt tck : Bool) (B : Nat) :
    migrate mode ce pts a m d dt tck B = migrate mode ce pts b m d dt tck B := rfl

/-- C10: for a non-empty batch the batch processor reports the number of
fetched records as the processed count, in create mode and in update mode
alike, independently of the target table contents (hence of how many rows
were actually matched). -/
theorem c10_processed_count_is_batch_length (mode : Mode) (cfg : Bool)
    (tbl : List Row) (points : List Point) (h : points ≠ []) :
    (batch_processor mode cfg tbl points).2 = points.length ∧
    (∀ tbl', (batch_processor mode cfg tbl' points).2
      = (batch_processor mode cfg tbl points).2) := by
  have hne : points.isEmpty = false := by simp [List.isEmpty_iff, h]
  constructor
  · cases mode <;> simp [batch_processor, hne]
  · intro tbl'
    cases mode <;> simp [batch_processor, hne]

/-- Witness for C10: a two-point batch applied in update mode to an empty
table (zero matched rows) still reports 2 processed records. -/
theorem c10_witness :
    (batch_processor .update true []
        [⟨PointId.intId 1, [], ""⟩, ⟨PointId.intId 2, [], ""⟩]).2
      = ([⟨PointId.intId 1, [], ""⟩,
          ⟨PointId.intId 2, [], ""⟩] : List Point).length :=
  (c10_processed_count_is_batch_length .update true []
    [⟨PointId.intId 1, [], ""⟩, ⟨PointId.intId 2, [], ""⟩] (by decide)).1

/-- C7: a failure while updating any single page aborts the whole batch-update
job at once: the error propagates to the caller and the pages after the
failing one are never attempted. -/
theorem c7_page_failure_aborts (env : Page → Except String Nat)
    (ps : List Page) (p : Page) (ps' : List Page) (e : String)
    (hok : ∀ q ∈ ps, ∃ n, env q = .ok n) (herr : env p = .error e) :
    batch_update_table env (ps ++ p :: ps')
        = .error (.clickError ("Failed to update batch: " ++ e)) ∧
    attempted_pages env (ps ++ p :: ps') = ps ++ [p] := by
  have hwrap : batch_update_within_range env p
      = .error (.clickError ("Failed to update batch: " ++ e)) := by
    simp only [batch_update_within_range, herr]
  have hmain : ∀ (qs : List Page) (acc : Nat), (∀ q ∈ qs, ∃ n, env q = .ok n) →
      batch_update_pages env (qs ++ p :: ps') acc
        = .error (.clickError ("Failed to update batch: " ++ e)) := by
    intro qs
    induction qs with
    | nil =>
      intro acc _
      simp only [List.nil_append, batch_update_pages, hwrap]
    | cons q qs ih =>
      intro acc hq
      rcases hq q (by simp) with ⟨n, hqn⟩
      simp only [List.cons_append, batch_update_pages, batch_update_within_range,
        hqn]
      exact ih (acc + n) (fun r hr => hq r (by simp [hr]))
  have hatt : ∀ qs : List Page, (∀ q ∈ qs, ∃ n, env q = .ok n) →
      attempted_pages env (qs ++ p :: ps') = qs ++ [p] := by
    intro qs
    induction qs with
    | nil =>
      intro _
      simp only [List.nil_append, attempted_pages, hwrap]
    | cons q qs ih =>
      intro hq
      rcases hq q (by simp) with ⟨n, hqn⟩
      simp only [List.cons_append, attempted_pages, batch_update_within_range,
        hqn, List.cons.injEq, true_and]
      exact ih (fun r hr => hq r (by simp [hr]))
  refine ⟨?_, hatt ps hok⟩
  rw [batch_update_table, if_neg (by simp)]
  exact hmain ps 0 hok

/-- Witness for C7: with three pages and an environment failing on the second,
the job returns the wrapped error and only the first two pages were ever
attempted. -/
theorem c7_witness :
    batch_update_table
        (fun pg => if pg.page_num = 2 then .error "boom" else .ok 5)
        [⟨1, 5, 1, 5⟩, ⟨6, 9, 2, 4⟩, ⟨10, 12, 3, 3⟩]
      = .error (.clickError ("Failed to update batch: " ++ "boom")) ∧
    attempted_pages
        (fun pg => if pg.page_num = 2 then .error "boom" else .ok 5)
        [⟨1, 5, 1, 5⟩, ⟨6, 9, 2, 4⟩, ⟨10, 12, 3, 3⟩]
      = [⟨1, 5, 1, 5⟩] ++ [⟨6, 9, 2, 4⟩] :=
  c7_page_failure_aborts
    (fun pg => if pg.page_num = 2 then .error "boom" else .ok 5)
    [⟨1, 5, 1, 5⟩] ⟨6, 9, 2, 4⟩ [⟨10, 12, 3, 3⟩] "boom"
    (by
      intro q hq
      rw [List.mem_singleton] at hq
      subst hq
      exact ⟨5, rfl⟩)
    rfl

theorem attemptStep_fetched {env : Nat → Nat → ScrollOutcome}
    {size a : Nat} {pts : List Point} {next : Option Nat}
    (h : attemptStep env size a = some (.fetched pts next)) :
    env size a = .success pts next := by
  unfold attemptStep at h
  cases henv : env size a <;> rw [henv] at h
  · simp only [Option.some.injEq, AttemptExit.fetched.injEq] at h
    rw [h.1, h.2]
  · by_cases h1 : 100 < size
    · rw [if_pos h1] at h
      by_cases h2 : 100 ≤ size / 2
      · rw [if_pos h2] at h
        simp at h
      · rw [if_neg h2] at h
        simp at h
    · rw [if_neg h1] at h
      simp at h
  · simp at h

theorem tryAttempts_fetched {env : Nat → Nat → ScrollOutcome} {size : Nat}
    {pts : List Point} {next : Option Nat}
    (h : tryAttempts env size = .fetched pts next) :
    ∃ a, a < 3 ∧ env size a = .success pts next := by
  unfold tryAttempts at h
  cases h0 : attemptStep env size 0 with
  | some e =>
    rw [h0] at h
    cases e with
    | fetched q n =>
      simp only [FetchExit.fetched.injEq] at h
      exact ⟨0, by omega, by rw [← h.1, ← h.2]; exact attemptStep_fetched h0⟩
    | shrink => simp at h
  | none =>
    rw [h0] at h
    cases h1 : attemptStep env size 1 with
    | some e =>
      rw [h1] at h
      cases e with
      | fetched q n =>
        simp only [FetchExit.fetched.injEq] at h
        exact ⟨1, by omega, by rw [← h.1, ← h.2]; exact attemptStep_fetched h1⟩
      | shrink => simp at h
    | none =>
      rw [h1] at h
      cases h2 : attemptStep env size 2 with
      | some e =>
        rw [h2] at h
        cases e with
        | fetched q n =>
          simp only [FetchExit.fetched.injEq] at h
          exact ⟨2, by omega, by rw [← h.1, ← h.2]; exact attemptStep_fetched h2⟩
        | shrink => simp at h
      | none =>
        rw [h2] at h
        simp at h

/-- C8: when every scroll attempt fails, the exhausted retry wrapper returns
the empty result `([], none)` rather than raising — the very value a scroll
of an exhausted collection returns, so the caller cannot tell the two
apart. -/
theorem c8_exhausted_returns_empty (env env2 : Nat → Nat → ScrollOutcome)
    (size size2 : Nat)
    (hfail : ∀ s a pts next, env s a ≠ .success pts next)
    (hempty : env2 size2 0 = .success [] none) :
    fetch_batch env size = ([], none) ∧ fetch_batch env2 size2 = ([], none) := by
  constructor
  · induction size using Nat.strong_induction_on with
    | _ size ih =>
      rw [fetch_batch]
      cases htry : tryAttempts env size with
      | fetched pts next =>
        rcases tryAttempts_fetched htry with ⟨a, _, ha⟩
        exact absurd ha (hfail size a pts next)
      | exhausted => rfl
      | shrink =>
        have h100 := (tryAttempts_shrink htry).1
        exact ih (size / 2) (Nat.div_lt_self (by omega) (by omega))
  · rw [fetch_batch]
    have htry : tryAttempts env2 size2 = .fetched [] none := by
      unfold tryAttempts attemptStep
      rw [hempty]
    rw [htry]

/-- Witness for C8: an environment that always raises a non-size error
exhausts its three attempts at batch size 500 and returns the empty result,
the same value an immediately-exhausted collection produces at size 777. -/
theorem c8_witness :
    fetch_batch (fun _ _ => ScrollOutcome.otherError) 500 = ([], none) ∧
    fetch_batch (fun _ _ => ScrollOutcome.success [] none) 777 = ([], none) :=
  c8_exhausted_returns_empty (fun _ _ => ScrollOutcome.otherError)
    (fun _ _ => ScrollOutcome.success [] none) 500 777
    (fun s a pts next h => ScrollOutcome.noConfusion h) rfl

theorem chunkList_ne_nil {α : Type} {B : Nat} (hB : 1 ≤ B) :
    ∀ (l : List α), ∀ c ∈ chunkList B l, c ≠ [] := by
  suffices h : ∀ (n : Nat) (l : List α), l.length = n →
      ∀ c ∈ chunkList B l, c ≠ [] by
    exact fun l => h l.length l rfl
  intro n
  induction n using Nat.strong_induction_on with
  | _ n ih =>
    intro l hn c hc
    cases l with
    | nil =>
      rw [chunkList_nil] at hc
      simp at hc
    | cons x xs =>
      rw [chunkList_cons hB x xs] at hc
      rcases List.mem_cons.mp hc with h1 | h2
      · subst h1
        cases B with
        | zero => omega
        | succ b => simp
      · exact ih (xs.drop (B - 1)).length
          (by simp only [List.length_drop, List.length_cons] at hn ⊢; omega)
          (xs.drop (B - 1)) rfl c h2

theorem chunkList_sorted {B : Nat} (hB : 1 ≤ B) :
    ∀ (l : List Nat), List.Pairwise (· < ·) l →
      ∀ c ∈ chunkList B l, List.Pairwise (· < ·) c := by
  suffices h : ∀ (n : Nat) (l : List Nat), l.length = n →
      List.Pairwise (· < ·) l → ∀ c ∈ chunkList B l, List.Pairwise (· < ·) c by
    exact fun l => h l.length l rfl
  intro n
  induction n using Nat.strong_induction_on with
  | _ n ih =>
    intro l hn hl c hc
    cases l with
    | nil =>
      rw [chunkList_nil] at hc
      simp at hc
    | cons x xs =>
      rw [chunkList_cons hB x xs] at hc
      rcases List.mem_cons.mp hc with h1 | h2
      · subst h1
        exact hl.sublist (List.take_sublist B (x :: xs))
      · exact ih (xs.drop (B - 1)).length
          (by simp only [List.length_drop, List.length_cons] at hn ⊢; omega)
          (xs.drop (B - 1)) rfl
          (hl.sublist (by rw [← drop_cons_of_pos hB x xs]
                          exact List.drop_sublist B (x :: xs)))
          c h2

theorem chunkList_cross {B : Nat} (hB : 1 ≤ B) :
    ∀ (l : List Nat), List.Pairwise (· < ·) l →
      List.Pairwise (fun c d => ∀ x ∈ c, ∀ y ∈ d, x < y) (chunkList B l) := by
  suffices h : ∀ (n : Nat) (l : List Nat), l.length = n →
      List.Pairwise (· < ·) l →
      List.Pairwise (fun c d => ∀ x ∈ c, ∀ y ∈ d, x < y) (chunkList B l) by
    exact fun l => h l.length l rfl
  intro n
  induction n using Nat.strong_induction_on with
  | _ n ih =>
    intro l hn hl
    cases l with
    | nil =>
      rw [chunkList_nil]
      exact List.Pairwise.nil
    | cons x xs =>
      rw [chunkList_cons hB x xs]
      have hsplit : List.Pairwise (· < ·) ((x :: xs).take B ++ (x :: xs).drop B) := by
        rw [List.take_append_drop]
        exact hl
      rcases List.pairwise_append.mp hsplit with ⟨htake, hdrop, hcross⟩
      rw [drop_cons_of_pos hB x xs] at hdrop hcross
      refine List.Pairwise.cons ?_ ?_
      · intro d hd a ha y hy
        have hyl : y ∈ xs.drop (B - 1) := by
          rw [← chunkList_flatten hB (xs.drop (B - 1))]
          exact List.mem_flatten.mpr ⟨d, hd, hy⟩
        exact hcross a ha y hyl
      · exact ih (xs.drop (B - 1)).length
          (by simp only [List.length_drop, List.length_cons] at hn ⊢; omega)
          (xs.drop (B - 1)) rfl hdrop

theorem headD_mem {l : List Nat} (h : l ≠ []) : l.headD 0 ∈ l := by
  cases l with
  | nil => exact absurd rfl h
  | cons a as => simp

theorem getLastD_mem {l : List Nat} (h : l ≠ []) : l.getLastD 0 ∈ l := by
  cases l with
  | nil => exact absurd rfl h
  | cons a as =>
    rw [List.getLastD_eq_getLast?, List.getLast?_eq_getLast _ (by simp)]
    exact List.getLast_mem (by simp)

theorem headD_le_getLastD {l : List Nat} (hne : l ≠ [])
    (hs : List.Pairwise (· < ·) l) : l.headD 0 ≤ l.getLastD 0 := by
  cases l with
  | nil => exact absurd rfl hne
  | cons a as =>
    rcases List.mem_cons.mp (getLastD_mem (l := a :: as) (by simp)) with h1 | h2
    · rw [List.headD_cons, h1]
    · rcases List.pairwise_cons.mp hs with ⟨ha, _⟩
      exact Nat.le_of_lt (ha _ h2)

theorem pagesFrom_mem {cs : List (List Nat)} {q : Page} :
    ∀ {i : Nat}, q ∈ pagesFrom i cs →
      ∃ d ∈ cs, q.start_key = d.headD 0 ∧ q.end_key = d.getLastD 0 ∧
        q.page_size = d.length := by
  induction cs with
  | nil =>
    intro i hq
    simp [pagesFrom] at hq
  | cons c cs ih =>
    intro i hq
    rcases List.mem_cons.mp hq with h1 | h2
    · exact ⟨c, by simp, by rw [h1], by rw [h1], by rw [h1]⟩
    · rcases ih h2 with ⟨d, hd, h⟩
      exact ⟨d, by simp [hd], h⟩

theorem pagesFrom_pairwise {cs : List (List Nat)}
    (hne : ∀ c ∈ cs, c ≠ [])
    (hcross : List.Pairwise (fun c d => ∀ x ∈ c, ∀ y ∈ d, x < y) cs) :
    ∀ i, List.Pairwise (fun pg qg => pg.end_key < qg.start_key)
      (pagesFrom i cs) := by
  induction cs with
  | nil =>
    intro i
    exact List.Pairwise.nil
  | cons c cs ih =>
    intro i
    rcases List.pairwise_cons.mp hcross with ⟨hc, hcs⟩
    refine List.Pairwise.cons ?_ (ih (fun d hd => hne d (by simp [hd])) hcs (i + 1))
    intro q hq
    rcases pagesFrom_mem hq with ⟨d, hd, hstart, _, _⟩
    show (⟨c.headD 0, c.getLastD 0, i, c.length⟩ : Page).end_key < q.start_key
    rw [hstart]
    exact hc d hd (c.getLastD 0) (getLastD_mem (hne c (by simp)))
      (d.headD 0) (headD_mem (hne d (by simp [hd])))

/-- C3: for every (distinct-key, ascending) table of total_rows rows and
every batch size at least 1, the range partitioner produces exactly
ceil(total_rows / batch_size) pages, the page sizes are full batches followed
by one remainder and sum to total_rows, and the (start_key, end_key)
intervals are strictly disjoint in ascending key order; in particular 10500
rows at batch size 5000 give 3 pages of sizes (5000, 5000, 500). -/
theorem c3_partitioner_pages (keys : List Nat) (B : Nat) (hB : 1 ≤ B)
    (hsorted : List.Pairwise (· < ·) keys) :
    (get_table_pagination keys B).length = (keys.length + B - 1) / B ∧
    ((get_table_pagination keys B).map Page.page_size).sum = keys.length ∧
    (get_table_pagination keys B).map Page.page_size = chunkSizes B keys.length ∧
    List.Pairwise (fun pg qg => pg.end_key < qg.start_key)
      (get_table_pagination keys B) ∧
    (∀ pg ∈ get_table_pagination keys B, pg.start_key ≤ pg.end_key) ∧
    (get_table_pagination (List.range 10500) 5000).map Page.page_size
      = [5000, 5000, 500] := by
  have hsizes : (get_table_pagination keys B).map Page.page_size
      = chunkSizes B keys.length := by
    rw [get_table_pagination, pagesFrom_map_size, chunkList_map_length]
  refine ⟨?_, ?_, hsizes, ?_, ?_, ?_⟩
  · rw [get_table_pagination, pagesFrom_length]
    have h1 := congrArg List.length (chunkList_map_length B keys)
    rw [List.length_map] at h1
    rw [h1, chunkSizes_length hB]
  · rw [hsizes]
    have h1 := congrArg List.length (chunkList_flatten hB keys)
    rw [List.length_flatten, chunkList_map_length] at h1
    exact h1
  · rw [get_table_pagination]
    exact pagesFrom_pairwise (chunkList_ne_nil hB keys)
      (chunkList_cross hB keys hsorted) 1
  · intro pg hpg
    rw [get_table_pagination] at hpg
    rcases pagesFrom_mem hpg with ⟨d, hd, hstart, hend, _⟩
    rw [hstart, hend]
    exact headD_le_getLastD (chunkList_ne_nil hB keys d hd)
      (chunkList_sorted hB keys hsorted d hd)
  · rw [get_table_pagination, pagesFrom_map_size, chunkList_map_length,
      List.length_range]
    rw [chunkSizes, if_neg (by norm_num)]
    rw [chunkSizes, if_neg (by norm_num)]
    rw [chunkSizes, if_neg (by norm_num)]
    rw [chunkSizes, if_pos (Or.inl (by norm_num))]
    norm_num

/-- Witness for C3 at a concrete table: keys (1, 3, 7) with batch size 2 give
ceil(3/2) = 2 pages with sizes summing to 3 and disjoint ascending ranges. -/
theorem c3_witness :
    (get_table_pagination [1, 3, 7] 2).length = (3 + 2 - 1) / 2 ∧
    ((get_table_pagination [1, 3, 7] 2).map Page.page_size).sum
      = ([1, 3, 7] : List Nat).length ∧
    List.Pairwise (fun pg qg => pg.end_key < qg.start_key)
      (get_table_pagination [1, 3, 7] 2) := by
  have h := c3_partitioner_pages [1, 3, 7] 2 (by decide) (by decide)
  exact ⟨h.1, h.2.1, h.2.2.2.1⟩

theorem fetchSuccSize_pow (env : Nat → Nat → ScrollOutcome) :
    ∀ (size s : Nat), fetchSuccSize env size = some s →
      ∃ k, s = size / 2 ^ k ∧ (k = 0 ∨ 100 ≤ s) := by
  intro size
  induction size using Nat.strong_induction_on with
  | _ size ih =>
    intro s hs
    rw [fetchSuccSize] at hs
    cases htry : tryAttempts env size with
    | fetched pts next =>
      rw [htry] at hs
      simp only [Option.some.injEq] at hs
      exact ⟨0, by rw [← hs]; simp, Or.inl rfl⟩
    | exhausted =>
      rw [htry] at hs
      simp at hs
    | shrink =>
      rw [htry] at hs
      have hlt : size / 2 < size := by
        have h100 := (tryAttempts_shrink htry).1
        exact Nat.div_lt_self (by omega) (by omega)
      rcases ih (size / 2) hlt s hs with ⟨k, hk, hor⟩
      refine ⟨k + 1, ?_, Or.inr ?_⟩
      · rw [hk, Nat.div_div_eq_div_mul]
        congr 1
        rw [pow_succ]
        ring
      · rcases hor with h0 | h100s
        · subst h0
          simp only [pow_zero, Nat.div_one] at hk
          rw [hk]
          exact (tryAttempts_shrink htry).2
        · exact h100s

/-- Point returned by the environment below when the fetch runs at the halved
size 62 (where the claim, as stated, says the successful fetch happens). -/
def ptShrunk : Point := ⟨PointId.intId 1, [], ""⟩

/-- Point returned by the environment below when the fetch retries at the
unhalved size 125 (where the code actually succeeds). -/
def ptKept : Point := ⟨PointId.intId 2, [], ""⟩

/-- Scroll environment driving `fetch_batch` from size 1000 down to 125: the
first attempt at any size above 100 fails with "Message too long"; any other
attempt succeeds, returning `ptKept` at size 125 and `ptShrunk` elsewhere
(in particular at size 62). -/
def envC2 : Nat → Nat → ScrollOutcome := fun size attempt =>
  if attempt = 0 ∧ 100 < size then .tooLong
  else if size = 125 then .success [ptKept] none
  else .success [ptShrunk] none

theorem envC2_try_1000 : tryAttempts envC2 1000 = .shrink := by decide

theorem envC2_try_500 : tryAttempts envC2 500 = .shrink := by decide

theorem envC2_try_250 : tryAttempts envC2 250 = .shrink := by decide

theorem envC2_try_125 : tryAttempts envC2 125 = .fetched [ptKept] none := by
  decide

theorem envC2_try_62 : tryAttempts envC2 62 = .fetched [ptShrunk] none := by
  decide

theorem fetch_batch_envC2_125 : fetch_batch envC2 125 = ([ptKept], none) := by
  rw [fetch_batch, envC2_try_125]

theorem fetch_batch_envC2_1000 : fetch_batch envC2 1000 = ([ptKept], none) := by
  rw [fetch_batch, envC2_try_1000]
  show fetch_batch envC2 500 = ([ptKept], none)
  rw [fetch_batch, envC2_try_500]
  show fetch_batch envC2 250 = ([ptKept], none)
  rw [fetch_batch, envC2_try_250]
  show fetch_batch envC2 125 = ([ptKept], none)
  exact fetch_batch_envC2_125

theorem fetchSuccSize_envC2_1000 : fetchSuccSize envC2 1000 = some 125 := by
  rw [fetchSuccSize, envC2_try_1000]
  show fetchSuccSize envC2 500 = some 125
  rw [fetchSuccSize, envC2_try_500]
  show fetchSuccSize envC2 250 = some 125
  rw [fetchSuccSize, envC2_try_250]
  show fetchSuccSize envC2 125 = some 125
  rw [fetchSuccSize, envC2_try_125]

/-- C2 counterexample: at the reachable batch size 125 (reached from 1000 by
three halvings), a payload-too-large failure does NOT halve the batch size
and retry without consuming an attempt, although 125 exceeds the floor 100:
the run started at 1000 succeeds at size 125 on its second attempt (so the
attempt was consumed) and returns the batch served at 125 — not the batch a
fetch at the halved size 62 returns. -/
theorem c2_counterexample :
    fetch_batch envC2 1000 = ([ptKept], none) ∧
    fetchSuccSize envC2 1000 = some 125 ∧
    fetch_batch envC2 62 = ([ptShrunk], none) ∧
    fetch_batch envC2 1000 ≠ fetch_batch envC2 62 := by
  have h62 : fetch_batch envC2 62 = ([ptShrunk], none) := by
    rw [fetch_batch, envC2_try_62]
  refine ⟨fetch_batch_envC2_1000, fetchSuccSize_envC2_1000, h62, ?_⟩
  rw [fetch_batch_envC2_1000, h62]
  intro h
  have h2 := congrArg Prod.fst h
  simp only [List.cons.injEq] at h2
  exact absurd h2.1 (by decide)

/-- C2 (amended): on a payload-too-large failure the wrapper halves the batch
size and retries immediately with a fresh attempt budget only when the halved
size is still at least the floor 100; when the halved size would fall below
the floor the attempt is consumed and the size kept.  Starting from batch
size 1000, the size used by the eventual successful fetch is always
1000 divided by a power of two (1000, 500, 250 or 125) and is at least
100. -/
theorem c2_adaptive_shrink_amended :
    (∀ env size, env size 0 = ScrollOutcome.tooLong → 100 < size →
      100 ≤ size / 2 → fetch_batch env size = fetch_batch env (size / 2)) ∧
    (∀ env size pts next, env size 0 = ScrollOutcome.tooLong → size / 2 < 100 →
      env size 1 = ScrollOutcome.success pts next →
      fetch_batch env size = (pts, next)) ∧
    (∀ env s, fetchSuccSize env 1000 = some s →
      (∃ k, s = 1000 / 2 ^ k) ∧ 100 ≤ s) := by
  refine ⟨?_, ?_, ?_⟩
  · intro env size h0 h1 h2
    have htry : tryAttempts env size = .shrink := by
      simp only [tryAttempts, attemptStep, h0, if_pos h1, if_pos h2]
    rw [fetch_batch, htry]
  · intro env size pts next h0 h2 hsucc
    have hstep0 : attemptStep env size 0 = none := by
      simp only [attemptStep, h0]
      by_cases hc : 100 < size
      · rw [if_pos hc, if_neg (by omega)]
      · rw [if_neg hc]
    have hstep1 : attemptStep env size 1 = some (.fetched pts next) := by
      simp only [attemptStep, hsucc]
    have htry : tryAttempts env size = .fetched pts next := by
      simp only [tryAttempts, hstep0, hstep1]
    rw [fetch_batch, htry]
  · intro env s hs
    rcases fetchSuccSize_pow env 1000 s hs with ⟨k, hk, hor⟩
    refine ⟨⟨k, hk⟩, ?_⟩
    rcases hor with h0 | h100
    · subst h0
      simp only [pow_zero, Nat.div_one] at hk
      omega
    · exact h100

/-- Witness for the amended C2: under `envC2`, the failure at size 1000 (whose
halved size 500 is above the floor) restarts the fetch at 500 with a fresh
budget, and the successful size 125 of the run from 1000 is 1000 divided by a
power of two and at least 100. -/
theorem c2_witness :
    fetch_batch envC2 1000 = fetch_batch envC2 500 ∧
    ((∃ k, 125 = 1000 / 2 ^ k) ∧ 100 ≤ 125) :=
  ⟨c2_adaptive_shrink_amended.1 envC2 1000 rfl (by norm_num) (by norm_num),
    c2_adaptive_shrink_amended.2.2 envC2 125 fetchSuccSize_envC2_1000⟩

theorem pulledBatches_sum_le (tt B : Nat) :
    ∀ (bs : List (List Point)) (req : Nat),
      ((pulledBatches tt B req bs).map List.length).sum
        ≤ (bs.map List.length).sum := by
  intro bs
  induction bs with
  | nil =>
    intro req
    simp [pulledBatches]
  | cons b bs ih =>
    intro req
    by_cases h : req < tt
    · simp only [pulledBatches, if_pos h, List.map_cons, List.sum_cons]
      exact Nat.add_le_add_left (ih (req + B)) b.length
    · simp only [pulledBatches, if_neg h, List.map_cons, List.sum_cons,
        List.map_nil, List.sum_nil]
      omega

theorem pulledBatches_count_le (t B : Nat) (hB : 1 ≤ B) :
    ∀ (bs : List (List Point)) (req : Nat),
      (pulledBatches t B req bs).length ≤ ((t - req) + B - 1) / B := by
  intro bs
  induction bs with
  | nil =>
    intro req
    simp [pulledBatches]
  | cons b bs ih =>
    intro req
    by_cases h : req < t
    · simp only [pulledBatches, if_pos h, List.length_cons]
      have hrec := ih (req + B)
      have harith : ((t - req) + B - 1) / B = ((t - req - B) + B - 1) / B + 1 :=
        ceil_div_rec (t := t - req) hB (by omega)
      have hsub : t - (req + B) = t - req - B := by omega
      rw [hsub] at hrec
      omega
    · simp only [pulledBatches, if_neg h, List.length_nil]
      exact Nat.zero_le _

theorem process_batches_le (B : Nat) (pts : List Point) :
    process_batches_concurrent pts.length B (batch_generator B pts) List.length
      ≤ pts.length := by
  unfold process_batches_concurrent batch_generator
  calc ((pulledBatches pts.length B 0 (chunkList B pts)).map List.length).sum
      ≤ ((chunkList B pts).map List.length).sum :=
        pulledBatches_sum_le pts.length B (chunkList B pts) 0
    _ ≤ pts.length := chunkList_sum_length_le B pts

/-- C1: over a stable source, the final progress total reported by a
migration run never exceeds the source record count observed at job start,
and the producer guard stops pulling batches once the start-time total has
been requested — it requests at most ceil(tasks_total / batch_size) batches
from the generator no matter how many batches the source offers. -/
theorem c1_progress_bounded_by_start_total :
    (∀ (mode : Mode) (ce : Bool) (pts : List Point) (a m : String) (d : Nat)
        (dt tck : Bool) (B : Nat),
      (migrate mode ce pts a m d dt tck B).processed ≤ pts.length) ∧
    (∀ (tt B : Nat) (bs : List (List Point)), 1 ≤ B →
      (pulledBatches tt B 0 bs).length ≤ (tt + B - 1) / B) := by
  constructor
  · intro mode ce pts a m d dt tck B
    have hbound := process_batches_le B pts
    cases ce with
    | false => simp [migrate]
    | true =>
      rcases pts with _ | ⟨p, rest⟩
      · simp [migrate]
      · have hbound' := process_batches_le B (p :: rest)
        cases hpid : p.id with
        | intId n =>
          simp only [migrate, List.take_succ_cons, List.take_zero, hpid,
            List.length_cons]
          norm_num
          cases mode with
          | create =>
            cases hc : create_vector_table m d "BIGINT" with
            | error e => simp [hc]
            | ok spec =>
              simp only [hc]
              simpa using hbound'
          | update =>
            by_cases htck : tck = false
            · simp [htck]
            · simp only [if_neg htck]
              simpa using hbound'
        | strId s =>
          simp only [migrate, List.take_succ_cons, List.take_zero, hpid,
            List.length_cons]
          norm_num
          cases mode with
          | create =>
            cases hc : create_vector_table m d ("VARCHAR(" ++ toString s.length ++ ")") with
            | error e => simp [hc]
            | ok spec =>
              simp only [hc]
              simpa using hbound'
          | update =>
            by_cases htck : tck = false
            · simp [htck]
            · simp only [if_neg htck]
              simpa using hbound'
        | otherId =>
          simp only [migrate, List.take_succ_cons, List.take_zero, hpid,
            List.length_cons]
          norm_num
  · intro tt B bs hB
    have h := pulledBatches_count_le tt B hB bs 0
    simpa using h

/-- Witness for C1: a concrete one-record create-mode run reports at most one
processed record, and with a start-time total of 250 and batch size 100 the
producer pulls at most ceil(250/100) = 3 of the five batches the source
offers. -/
theorem c1_witness :
    (migrate .create true [⟨PointId.intId 1, [2], "pp"⟩] "BIGINT" "cosine" 1
        false true 100).processed
      ≤ ([⟨PointId.intId 1, [2], "pp"⟩] : List Point).length ∧
    (pulledBatches 250 100 0 [[], [], [], [], []]).length
      ≤ (250 + 100 - 1) / 100 :=
  ⟨c1_progress_bounded_by_start_total.1 .create true
      [⟨PointId.intId 1, [2], "pp"⟩] "BIGINT" "cosine" 1 false true 100,
    c1_progress_bounded_by_start_total.2 250 100 [[], [], [], [], []]
      (by norm_num)⟩

end Vec2TiDB
